import Mathlib

set_option maxRecDepth 4000

/-!
Shallow embedding of the authentication / credential-handling core of the
tgbot repository (src/cryptoUtils.js, src/mockDb.js, src/utils/auth.js,
src/utils/messages.js and the relevant endpoints of src/index.js).

Conventions of the embedding:
* JavaScript strings and Buffers are modelled as `List Nat`, the list of
  their bytes (every relevant string in the code is ASCII, and plaintext
  strings are identified with their UTF-8 byte sequences, which is faithful
  because UTF-8 encoding is injective).
* A thrown exception that a caller catches and converts to `null` is
  modelled by `Option` with `none` for the failure.
* Node's AES-256-GCM primitive (an external library, not part of this
  repository) is a parameter: a `GCM` structure whose `enc` maps
  key, iv, plaintext to (ciphertext, authTag) and whose `dec` maps
  key, iv, ciphertext, authTag to an optional plaintext.  The standard
  facts about GCM that the repository relies on (decryption inverts
  encryption under the same key and iv, the tag is 16 bytes, the
  ciphertext has the plaintext's length, outputs are bytes) are explicit
  hypotheses of the theorems that need them.
-/

/-! ## Byte-level codecs used by src/cryptoUtils.js

`Buffer.from(s).toString('base64')` / `Buffer.from(t, 'base64').toString()`
and the hex encodings produced by `iv.toString('hex')`,
`cipher.update(..., 'hex')`.  Node's base64 decoder ignores characters
outside the (standard or url-safe) alphabet, including `=` padding, and
turns every remaining group of 4 six-bit values into 3 bytes, a trailing
group of 3 into 2 bytes, of 2 into 1 byte, of 1 into 0 bytes. -/

/-- ASCII code of the base64 digit of a six-bit value. -/
def b64char (n : Nat) : Nat :=
  if n < 26 then 65 + n
  else if n < 52 then 97 + (n - 26)
  else if n < 62 then 48 + (n - 52)
  else if n = 62 then 43
  else 47

/-- Six-bit value of an ASCII code, `none` for characters outside the
base64 alphabet (Node accepts both `+/` and the url-safe `-_`). -/
def b64val (c : Nat) : Option Nat :=
  if 65 ≤ c ∧ c ≤ 90 then some (c - 65)
  else if 97 ≤ c ∧ c ≤ 122 then some (26 + (c - 97))
  else if 48 ≤ c ∧ c ≤ 57 then some (52 + (c - 48))
  else if c = 43 ∨ c = 45 then some 62
  else if c = 47 ∨ c = 95 then some 63
  else none

/-- Standard base64 encoding of a byte list (with `=` padding, ASCII 61),
as produced by `Buffer.toString('base64')`. -/
def base64Encode : List Nat → List Nat
  | [] => []
  | [a] => [b64char (a / 4), b64char (a % 4 * 16), 61, 61]
  | [a, b] => [b64char (a / 4), b64char (a % 4 * 16 + b / 16), b64char (b % 16 * 4), 61]
  | a :: b :: c :: rest =>
      b64char (a / 4) :: b64char (a % 4 * 16 + b / 16) ::
      b64char (b % 16 * 4 + c / 64) :: b64char (c % 64) :: base64Encode rest

/-- Repack a list of six-bit values into bytes, 4 values to 3 bytes,
dropping the bits a trailing short group cannot fill. -/
def b64group : List Nat → List Nat
  | a :: b :: c :: d :: rest =>
      (a * 4 + b / 16) :: (b % 16 * 16 + c / 4) :: (c % 4 * 64 + d) :: b64group rest
  | [a, b] => [a * 4 + b / 16]
  | [a, b, c] => [a * 4 + b / 16, b % 16 * 16 + c / 4]
  | _ => []

/-- Six-bit values of the alphabet characters of a list, others dropped. -/
def b64vals (l : List Nat) : List Nat := l.filterMap b64val

/-- Node-style lenient base64 decoding (`Buffer.from(t, 'base64')`). -/
def base64Decode (l : List Nat) : List Nat := b64group (b64vals l)

/-- ASCII code of the lowercase hex digit of a value below 16. -/
def hexDigit (n : Nat) : Nat := if n < 10 then 48 + n else 87 + n

/-- Two hex digits of a byte. -/
def hexByte (b : Nat) : List Nat := [hexDigit (b / 16), hexDigit (b % 16)]

/-- Lowercase hex encoding of a byte list (`buf.toString('hex')`). -/
def bytesToHex (l : List Nat) : List Nat := (l.map hexByte).flatten

/-- Value of a hex digit, `none` for other characters. -/
def hexDigitVal (c : Nat) : Option Nat :=
  if 48 ≤ c ∧ c ≤ 57 then some (c - 48)
  else if 97 ≤ c ∧ c ≤ 102 then some (10 + (c - 97))
  else if 65 ≤ c ∧ c ≤ 70 then some (10 + (c - 65))
  else none

/-- Hex decoding of a byte list to bytes (`Buffer.from(s, 'hex')`);
`none` on odd length or a non-hex character.  (Node instead truncates at
the first bad character; the theorems below only apply this to the
well-formed hex the repository itself produced, where the two agree, or
under an explicit decryption-failed hypothesis.) -/
def hexToBytes : List Nat → Option (List Nat)
  | [] => some []
  | [_] => none
  | a :: b :: rest =>
    match hexDigitVal a, hexDigitVal b, hexToBytes rest with
    | some x, some y, some r => some ((16 * x + y) :: r)
    | _, _, _ => none

/-- JavaScript `String.prototype.split(sep)` for a one-byte separator:
`''.split(':') = ['']`, separators delimit possibly empty fields. -/
def splitOnByte (sep : Nat) : List Nat → List (List Nat)
  | [] => [[]]
  | b :: rest =>
    if b = sep then [] :: splitOnByte sep rest
    else
      match splitOnByte sep rest with
      | [] => [[b]]
      | g :: gs => (b :: g) :: gs

/-! ## src/cryptoUtils.js -/

/-- Node's AES-256-GCM primitive (external library): `enc key iv plaintext`
gives (ciphertext, authTag); `dec key iv ciphertext authTag` gives the
plaintext or `none` when the authentication tag does not verify. -/
structure GCM where
  enc : List Nat → List Nat → List Nat → List Nat × List Nat
  dec : List Nat → List Nat → List Nat → List Nat → Option (List Nat)

/-- GCM decryption inverts encryption under the same key and iv. -/
def GCMRoundtrip (G : GCM) : Prop :=
  ∀ key iv p, G.dec key iv (G.enc key iv p).1 (G.enc key iv p).2 = some p

/-- GCM outputs are byte lists when the plaintext is one. -/
def GCMBytes (G : GCM) : Prop :=
  ∀ key iv p, (∀ b ∈ p, b < 256) →
    (∀ b ∈ (G.enc key iv p).1, b < 256) ∧ (∀ b ∈ (G.enc key iv p).2, b < 256)

/-- GCM authentication tags are 16 bytes. -/
def GCMTagLen (G : GCM) : Prop := ∀ key iv p, (G.enc key iv p).2.length = 16

/-- GCM ciphertext has the plaintext's length (GCM is a stream mode). -/
def GCMCtLen (G : GCM) : Prop := ∀ key iv p, (G.enc key iv p).1.length = p.length

/-- cryptoUtils.encrypt: encrypt `text` with the process-wide derived key
and the fresh 16-byte random `iv` (randomness is external, so the iv is a
parameter), hex-encode iv, authTag and ciphertext, join them with `:`
(ASCII 58) and base64-encode the joined string. -/
def encrypt (G : GCM) (key iv text : List Nat) : List Nat :=
  base64Encode
    (bytesToHex iv ++ 58 :: (bytesToHex (G.enc key iv text).2 ++ 58 ::
      bytesToHex (G.enc key iv text).1))

/-- cryptoUtils.decrypt: base64-decode, split on `:`, require exactly three
parts, hex-decode iv, authTag and ciphertext and run GCM decryption; any
failure (the JS code throws and every caller catches) is `none`. -/
def decrypt (G : GCM) (key token : List Nat) : Option (List Nat) :=
  match splitOnByte 58 (base64Decode token) with
  | [p0, p1, p2] =>
    match hexToBytes p0, hexToBytes p1, hexToBytes p2 with
    | some iv, some tag, some ct => G.dec key iv ct tag
    | _, _, _ => none
  | _ => none

/-- cryptoUtils.encryptPrivyAccessToken: throws (`none`) on an empty/absent
token, otherwise encrypts it. -/
def encryptPrivyAccessToken (G : GCM) (key iv accessToken : List Nat) : Option (List Nat) :=
  if accessToken.isEmpty then none else some (encrypt G key iv accessToken)

/-- cryptoUtils.decryptPrivyAccessToken: throws (`none`) on an empty/absent
token, otherwise decrypts it. -/
def decryptPrivyAccessToken (G : GCM) (key encryptedToken : List Nat) : Option (List Nat) :=
  if encryptedToken.isEmpty then none else decrypt G key encryptedToken

/-- cryptoUtils.isValidEncryptedToken: `none` models a null/non-string
argument; otherwise base64-decode, split on `:` and check for exactly three
parts of hex lengths 32 (iv), 32 (authTag) and more than 0 (ciphertext).
Total by construction, mirroring the catch-all that returns false. -/
def isValidEncryptedToken : Option (List Nat) → Bool
  | none => false
  | some token =>
    if token.isEmpty then false
    else
      match splitOnByte 58 (base64Decode token) with
      | [p0, p1, p2] => p0.length == 32 && p1.length == 32 && !p2.isEmpty
      | _ => false

/-! ## src/mockDb.js

The JSON file is modelled as a keyed map from Telegram user ids to user
records.  A field that is `null` or absent in the JSON (both are falsy and
the code only tests truthiness) is `none`; the `isAuthenticated` field of a
freshly initialised `{}` record is falsy, modelled `false`. -/

/-- One user record of wallet-mappings.json. -/
structure UserRecord where
  walletId : Option (List Nat) := none
  isAuthenticated : Bool := false
  privyUserId : Option (List Nat) := none
  privyAccessToken : Option (List Nat) := none
  lastLogin : Option Nat := none
deriving DecidableEq

/-- The whole mock database: user id to record, `none` when the id has no
entry. -/
abbrev AuthStore := Nat → Option UserRecord

/-- JavaScript truthiness of a nullable string: null/absent and the empty
string are falsy. -/
def truthy : Option (List Nat) → Bool
  | none => false
  | some s => !s.isEmpty

/-- mockDb.updateUserAuthStatus: upsert that always writes
`isAuthenticated` and stamps `lastLogin` with the current time, and writes
`privyUserId` / `privyAccessToken` only when the argument is truthy. -/
def updateUserAuthStatus (db : AuthStore) (userId : Nat) (isAuth : Bool)
    (privyUserId : Option (List Nat)) (encryptedAccessToken : Option (List Nat))
    (now : Nat) : AuthStore :=
  fun k =>
    if k = userId then
      some { (db userId).getD {} with
        isAuthenticated := isAuth
        lastLogin := some now
        privyUserId :=
          if truthy privyUserId then privyUserId else ((db userId).getD {}).privyUserId
        privyAccessToken :=
          if truthy encryptedAccessToken then encryptedAccessToken
          else ((db userId).getD {}).privyAccessToken }
    else db k

/-- mockDb.getUserAuthStatus: the record, or null when the user is
unknown. -/
def getUserAuthStatus (db : AuthStore) (userId : Nat) : Option UserRecord :=
  db userId

/-- mockDb.getUserAccessToken: null when the user or the stored token is
missing/falsy, otherwise the decrypted token, with any decryption failure
caught and converted to null. -/
def getUserAccessToken (G : GCM) (key : List Nat) (db : AuthStore) (userId : Nat) :
    Option (List Nat) :=
  match getUserAuthStatus db userId with
  | none => none
  | some r =>
    match r.privyAccessToken with
    | none => none
    | some tok => if tok.isEmpty then none else decryptPrivyAccessToken G key tok

/-- mockDb.clearUserAuthData: when the record exists, set
`isAuthenticated` to false and null the stored token, keeping
`privyUserId` and `lastLogin` (and the wallet); when it does not exist,
change nothing. -/
def clearUserAuthData (db : AuthStore) (userId : Nat) : AuthStore :=
  fun k =>
    if k = userId then
      match db userId with
      | none => none
      | some r => some { r with isAuthenticated := false, privyAccessToken := none }
    else db k

/-! ## src/utils/auth.js -/

/-- Result shape of checkUserAuthentication. -/
structure AuthCheckResult where
  isAuthenticated : Bool
  userData : Option UserRecord
  hasValidToken : Bool
deriving DecidableEq

/-- utils/auth.checkUserAuthentication: the safe default
`{false, null, false}` when the record is missing or not authenticated,
otherwise the record together with the truthiness of the decrypted access
token.  The function is total — the JS catch-all that returns the safe
default on an internal error has nothing left to catch in the pure
model. -/
def checkUserAuthentication (G : GCM) (key : List Nat) (db : AuthStore) (userId : Nat) :
    AuthCheckResult :=
  match getUserAuthStatus db userId with
  | none => ⟨false, none, false⟩
  | some r =>
    if r.isAuthenticated then
      ⟨r.isAuthenticated, some r, truthy (getUserAccessToken G key db userId)⟩
    else ⟨false, none, false⟩

/-- utils/auth.handleInvalidToken: clear the user's auth data exactly when
`shouldClear` is set. -/
def handleInvalidToken (db : AuthStore) (userId : Nat) (shouldClear : Bool) : AuthStore :=
  if shouldClear then clearUserAuthData db userId else db

/-! ## src/utils/messages.js (createErrorMessage) -/

/-- The `error.response` of an axios-style error: HTTP status and the
optional `data.message`. -/
structure ApiResponse where
  status : Nat
  dataMessage : Option String
deriving DecidableEq

/-- An error from a remote API call: `response` is present for HTTP
errors, `message` for plain errors. -/
structure ApiError where
  response : Option ApiResponse
  message : Option String
deriving DecidableEq

/-- utils/messages.createErrorMessage: user-facing text plus the
`shouldClearAuth` flag, which is set only in the 401 branch. -/
def createErrorMessage (e : ApiError) : String × Bool :=
  match e.response with
  | some resp =>
    if resp.status = 401 then
      ("❌ Authentication failed. Your token may have expired. Please re-authenticate using /login.",
        true)
    else if resp.status = 403 then
      ("❌ Access forbidden. Please check your permissions.", false)
    else
      ("❌ API Error (" ++ toString resp.status ++ "): " ++
        (match resp.dataMessage with
         | some m => if m = "" then "Unknown error" else m
         | none => "Unknown error"), false)
  | none =>
    match e.message with
    | some m =>
      if m = "" then ("❌ Sorry, there was an error fetching your account information.", false)
      else ("❌ Error: " ++ m, false)
    | none => ("❌ Sorry, there was an error fetching your account information.", false)

/-! ## src/index.js endpoints -/

/-- Snapshot returned by `bot.getWebHookInfo()`: registered URL, optional
last-error timestamp in seconds (0 is falsy in the JS truthiness test) and
the pending update count. -/
structure WebhookInfo where
  url : String
  last_error_date : Option Int
  pending_update_count : Nat
deriving DecidableEq

/-- The drift checks of POST /auto-reset-webhook, in source order: the URL
check sets needsReset/reason, the recent-error check overwrites them, the
pending-updates check overwrites them again.  The JS test
`Date.now() / 1000 - last_error_date < 300` over real numbers is scaled to
the exact integer test `nowMs - 1000 * d < 300000`. -/
def autoResetDecision (info : WebhookInfo) (expectedUrl : String) (nowMs : Int) :
    Bool × String :=
  let s1 : Bool × String :=
    if info.url ≠ expectedUrl then (true, "URL mismatch") else (false, "")
  let s2 : Bool × String :=
    match info.last_error_date with
    | some d => if d ≠ 0 ∧ nowMs - 1000 * d < 300000 then (true, "Recent errors detected") else s1
    | none => s1
  if info.pending_update_count > 10 then (true, "Too many pending updates") else s2

/-- Arguments of a `bot.setWebHook` call. -/
structure SetWebhookCall where
  url : String
  drop_pending_updates : Bool
deriving DecidableEq

/-- POST /auto-reset-webhook: evaluate drift; when a reset is needed,
re-register the expected URL with `drop_pending_updates: true` (the
`some` call), otherwise call nothing.  The decision pair is the data of
the JSON response (`reset`, `reason`). -/
def autoResetWebhook (info : WebhookInfo) (expectedUrl : String) (nowMs : Int) :
    Option SetWebhookCall × Bool × String :=
  let d := autoResetDecision info expectedUrl nowMs
  if d.1 then (some ⟨expectedUrl, true⟩, d) else (none, d)

/-- Outcome of POST /auth/callback. -/
inductive CallbackOutcome where
  | missingUserId
  | ok
deriving DecidableEq

/-- POST /auth/callback: 400 when `telegramUserId` is missing/falsy
(state untouched); otherwise encrypt the supplied credential unless it
already passes `isValidEncryptedToken`, and persist through
`updateUserAuthStatus`.  An absent or falsy credential leaves
`encryptedAccessToken` null. -/
def authCallback (G : GCM) (key iv : List Nat) (db : AuthStore)
    (telegramUserId : Option Nat) (privyUserId : Option (List Nat)) (isAuth : Bool)
    (privyAccessToken : Option (List Nat)) (now : Nat) : CallbackOutcome × AuthStore :=
  match telegramUserId with
  | none => (.missingUserId, db)
  | some u =>
    let encryptedAccessToken : Option (List Nat) :=
      match privyAccessToken with
      | none => none
      | some p =>
        if p.isEmpty then none
        else if isValidEncryptedToken (some p) then some p
        else some (encrypt G key iv p)
    (.ok, updateUserAuthStatus db u isAuth privyUserId encryptedAccessToken now)

/-- Stored ciphertext of a user, `none` when the user or the token is
absent. -/
def storedToken (db : AuthStore) (userId : Nat) : Option (List Nat) :=
  match db userId with
  | none => none
  | some r => r.privyAccessToken

/-- The recent-error condition of the auto-reset endpoint as one Boolean
(spec wording: a last-error timestamp exists and is within the trailing
300-second window; the JS truthiness test makes a timestamp of 0 count as
absent). -/
def hasRecentWebhookErrors (info : WebhookInfo) (nowMs : Int) : Bool :=
  match info.last_error_date with
  | some d => decide (d ≠ 0 ∧ nowMs - 1000 * d < 300000)
  | none => false

/-- ASCII bytes of the spec's sample plaintext credential
"plain-bearer-token-xyz". -/
def plainBearerToken : List Nat :=
  [112, 108, 97, 105, 110, 45, 98, 101, 97, 114, 101, 114, 45,
   116, 111, 107, 101, 110, 45, 120, 121, 122]

/-- Trivial AEAD instance used to instantiate witnesses: ciphertext equals
plaintext and the tag is a constant 16-byte block. -/
def idGCM : GCM where
  enc := fun _ _ p => (p, List.replicate 16 0)
  dec := fun _ _ c t => if t = List.replicate 16 0 then some c else none

/--16-byte iv used by witnesses. -/
def iv0 : List Nat := List.replicate 16 0

/-- Store with one ghost-authenticated user: authenticated flag set, stored
credential `[1]` undecryptable. -/
def ghostDb : AuthStore :=
  fun k => if k = 1 then some { isAuthenticated := true, privyAccessToken := some [1] } else none

/-- Store with one fully populated user record. -/
def fullDb : AuthStore :=
  fun k =>
    if k = 1 then
      some { walletId := some [7], isAuthenticated := true, privyUserId := some [2],
             privyAccessToken := some [3], lastLogin := some 4 }
    else none

/-- Store with one user whose record only carries a lastLogin timestamp. -/
def staleDb : AuthStore := fun k => if k = 1 then some { lastLogin := some 5 } else none

/-- Webhook snapshot whose URL differs from the expected URL while the
pending-update counter is also above the threshold. -/
def driftInfo : WebhookInfo :=
  { url := "https://a/webhook", last_error_date := none, pending_update_count := 11 }

/-! ### Codec lemmas -/

theorem b64val_b64char : ∀ n < 64, b64val (b64char n) = some n := by decide

theorem b64val_eq : b64val 61 = none := by decide

/-- Decoding inverts encoding on byte lists. -/
theorem base64Decode_encode :
    ∀ (l : List Nat), (∀ b ∈ l, b < 256) → base64Decode (base64Encode l) = l := by
  intro l
  induction l using base64Encode.induct with
  | case1 =>
    intro _
    rfl
  | case2 a =>
    intro h
    have ha : a < 256 := h a (by simp)
    have h1 : b64val (b64char (a / 4)) = some (a / 4) := b64val_b64char _ (by omega)
    have h2 : b64val (b64char (a % 4 * 16)) = some (a % 4 * 16) := b64val_b64char _ (by omega)
    simp only [base64Decode, base64Encode, b64vals, List.filterMap_cons, h1, h2, b64val_eq,
      List.filterMap_nil]
    show [a / 4 * 4 + a % 4 * 16 / 16] = [a]
    have : a / 4 * 4 + a % 4 * 16 / 16 = a := by omega
    rw [this]
  | case3 a b =>
    intro h
    have ha : a < 256 := h a (by simp)
    have hb : b < 256 := h b (by simp)
    have h1 : b64val (b64char (a / 4)) = some (a / 4) := b64val_b64char _ (by omega)
    have h2 : b64val (b64char (a % 4 * 16 + b / 16)) = some (a % 4 * 16 + b / 16) :=
      b64val_b64char _ (by omega)
    have h3 : b64val (b64char (b % 16 * 4)) = some (b % 16 * 4) := b64val_b64char _ (by omega)
    simp only [base64Decode, base64Encode, b64vals, List.filterMap_cons, h1, h2, h3, b64val_eq,
      List.filterMap_nil]
    show [a / 4 * 4 + (a % 4 * 16 + b / 16) / 16,
          (a % 4 * 16 + b / 16) % 16 * 16 + b % 16 * 4 / 4] = [a, b]
    have e1 : a / 4 * 4 + (a % 4 * 16 + b / 16) / 16 = a := by omega
    have e2 : (a % 4 * 16 + b / 16) % 16 * 16 + b % 16 * 4 / 4 = b := by omega
    rw [e1, e2]
  | case4 a b c rest ih =>
    intro h
    have ha : a < 256 := h a (by simp)
    have hb : b < 256 := h b (by simp)
    have hc : c < 256 := h c (by simp)
    have h1 : b64val (b64char (a / 4)) = some (a / 4) := b64val_b64char _ (by omega)
    have h2 : b64val (b64char (a % 4 * 16 + b / 16)) = some (a % 4 * 16 + b / 16) :=
      b64val_b64char _ (by omega)
    have h3 : b64val (b64char (b % 16 * 4 + c / 64)) = some (b % 16 * 4 + c / 64) :=
      b64val_b64char _ (by omega)
    have h4 : b64val (b64char (c % 64)) = some (c % 64) := b64val_b64char _ (by omega)
    have ih' := ih (fun x hx => h x (by simp [hx]))
    simp only [base64Decode, base64Encode, b64vals, List.filterMap_cons, h1, h2, h3, h4] at ih' ⊢
    show (a / 4 * 4 + (a % 4 * 16 + b / 16) / 16) ::
         ((a % 4 * 16 + b / 16) % 16 * 16 + (b % 16 * 4 + c / 64) / 4) ::
         ((b % 16 * 4 + c / 64) % 4 * 64 + c % 64) ::
         b64group (List.filterMap b64val (base64Encode rest)) = a :: b :: c :: rest
    rw [ih']
    have e1 : a / 4 * 4 + (a % 4 * 16 + b / 16) / 16 = a := by omega
    have e2 : (a % 4 * 16 + b / 16) % 16 * 16 + (b % 16 * 4 + c / 64) / 4 = b := by omega
    have e3 : (b % 16 * 4 + c / 64) % 4 * 64 + c % 64 = c := by omega
    rw [e1, e2, e3]

theorem hexDigitVal_hexDigit : ∀ n < 16, hexDigitVal (hexDigit n) = some n := by decide

/-- Hex decoding inverts hex encoding on byte lists. -/
theorem hexToBytes_bytesToHex :
    ∀ (l : List Nat), (∀ b ∈ l, b < 256) → hexToBytes (bytesToHex l) = some l := by
  intro l
  induction l with
  | nil => intro _; rfl
  | cons a rest ih =>
    intro h
    have ha : a < 256 := h a (by simp)
    have h1 : hexDigitVal (hexDigit (a / 16)) = some (a / 16) := hexDigitVal_hexDigit _ (by omega)
    have h2 : hexDigitVal (hexDigit (a % 16)) = some (a % 16) := hexDigitVal_hexDigit _ (by omega)
    have ih' := ih (fun x hx => h x (by simp [hx]))
    simp only [bytesToHex, List.map_cons, List.flatten_cons, hexByte, List.cons_append,
      List.nil_append] at ih' ⊢
    simp only [hexToBytes, h1, h2, ih']
    have : 16 * (a / 16) + a % 16 = a := by omega
    rw [this]

theorem hexDigit_range : ∀ n < 16, 48 ≤ hexDigit n ∧ hexDigit n ≤ 102 ∧ hexDigit n ≠ 58 := by
  decide

/-- Hex output of a byte list contains no colon and only bytes. -/
theorem mem_bytesToHex :
    ∀ (l : List Nat), (∀ b ∈ l, b < 256) → ∀ c ∈ bytesToHex l, c ≠ 58 ∧ c < 256 := by
  intro l
  induction l with
  | nil => intro _ c hc; simp [bytesToHex] at hc
  | cons a rest ih =>
    intro h c hc
    have ha : a < 256 := h a (by simp)
    simp only [bytesToHex, List.map_cons, List.flatten_cons, hexByte, List.cons_append,
      List.nil_append, List.mem_cons] at hc
    rcases hc with rfl | rfl | hc
    · have := hexDigit_range (a / 16) (by omega)
      exact ⟨this.2.2, by omega⟩
    · have := hexDigit_range (a % 16) (by omega)
      exact ⟨this.2.2, by omega⟩
    · exact ih (fun x hx => h x (by simp [hx])) c hc

theorem bytesToHex_length (l : List Nat) : (bytesToHex l).length = 2 * l.length := by
  induction l with
  | nil => rfl
  | cons a rest ih =>
    simp only [bytesToHex] at ih ⊢
    simp only [List.map_cons, List.flatten_cons, List.length_append, List.length_cons]
    simp only [hexByte, List.length_cons, List.length_nil]
    omega

/-- Splitting a list with no separator occurrence gives one field. -/
theorem splitOnByte_of_not_mem (sep : Nat) :
    ∀ (l : List Nat), (∀ b ∈ l, b ≠ sep) → splitOnByte sep l = [l] := by
  intro l
  induction l with
  | nil => intro _; rfl
  | cons b rest ih =>
    intro h
    have hb : b ≠ sep := h b (by simp)
    have ih' := ih (fun x hx => h x (by simp [hx]))
    simp [splitOnByte, hb, ih']

/-- Splitting at the first separator peels off the first field. -/
theorem splitOnByte_append (sep : Nat) (ys : List Nat) :
    ∀ (xs : List Nat), (∀ b ∈ xs, b ≠ sep) →
      splitOnByte sep (xs ++ sep :: ys) = xs :: splitOnByte sep ys := by
  intro xs
  induction xs with
  | nil => intro _; simp [splitOnByte]
  | cons b rest ih =>
    intro h
    have hb : b ≠ sep := h b (by simp)
    have ih' := ih (fun x hx => h x (by simp [hx]))
    simp [splitOnByte, hb, ih']

theorem base64Encode_ne_nil (l : List Nat) (h : l ≠ []) : base64Encode l ≠ [] := by
  rcases l with _ | ⟨a, _ | ⟨b, _ | ⟨c, r⟩⟩⟩ <;> simp_all [base64Encode]
/-! ### Shared facts about the token format -/

/-- Decoding the base64 layer of `encrypt`'s output recovers the joined
`hexIv:hexTag:hexCiphertext` string and splitting it recovers the parts. -/
theorem splitOnByte_base64Decode_encrypt (G : GCM) (key iv s : List Nat)
    (hB : GCMBytes G) (hiv : ∀ b ∈ iv, b < 256) (hs : ∀ b ∈ s, b < 256) :
    splitOnByte 58 (base64Decode (encrypt G key iv s)) =
      [bytesToHex iv, bytesToHex (G.enc key iv s).2, bytesToHex (G.enc key iv s).1] := by
  have hct : ∀ b ∈ (G.enc key iv s).1, b < 256 := (hB key iv s hs).1
  have htag : ∀ b ∈ (G.enc key iv s).2, b < 256 := (hB key iv s hs).2
  have hmemIv := mem_bytesToHex iv hiv
  have hmemTag := mem_bytesToHex _ htag
  have hmemCt := mem_bytesToHex _ hct
  have hbytes : ∀ b ∈ bytesToHex iv ++ 58 :: (bytesToHex (G.enc key iv s).2 ++ 58 ::
      bytesToHex (G.enc key iv s).1), b < 256 := by
    intro b hb
    simp only [List.mem_append, List.mem_cons] at hb
    rcases hb with hb | rfl | hb | rfl | hb
    · exact (hmemIv b hb).2
    · omega
    · exact (hmemTag b hb).2
    · omega
    · exact (hmemCt b hb).2
  rw [encrypt, base64Decode_encode _ hbytes]
  rw [splitOnByte_append 58 _ _ (fun b hb => (hmemIv b hb).1)]
  rw [splitOnByte_append 58 _ _ (fun b hb => (hmemTag b hb).1)]
  rw [splitOnByte_of_not_mem 58 _ (fun b hb => (hmemCt b hb).1)]

/-- Decrypting an encrypted token with the same key recovers the plaintext
(helper form of the §8 roundtrip property). -/
theorem decrypt_encrypt (G : GCM) (key iv s : List Nat)
    (hG : GCMRoundtrip G) (hB : GCMBytes G)
    (hiv : ∀ b ∈ iv, b < 256) (hs : ∀ b ∈ s, b < 256) :
    decrypt G key (encrypt G key iv s) = some s := by
  have hct : ∀ b ∈ (G.enc key iv s).1, b < 256 := (hB key iv s hs).1
  have htag : ∀ b ∈ (G.enc key iv s).2, b < 256 := (hB key iv s hs).2
  rw [decrypt, splitOnByte_base64Decode_encrypt G key iv s hB hiv hs]
  simp only [hexToBytes_bytesToHex iv hiv, hexToBytes_bytesToHex _ htag,
    hexToBytes_bytesToHex _ hct]
  exact hG key iv s

/-- Encrypt's output passes the structural validity check whenever the
plaintext is non-empty and the iv has the 16 bytes `crypto.randomBytes(16)`
produces. -/
theorem isValidEncryptedToken_encrypt (G : GCM) (key iv s : List Nat)
    (hB : GCMBytes G) (hT : GCMTagLen G) (hC : GCMCtLen G)
    (hivlen : iv.length = 16) (hiv : ∀ b ∈ iv, b < 256)
    (hs : ∀ b ∈ s, b < 256) (hne : s ≠ []) :
    isValidEncryptedToken (some (encrypt G key iv s)) = true := by
  have hsplit := splitOnByte_base64Decode_encrypt G key iv s hB hiv hs
  have henc : ¬((encrypt G key iv s).isEmpty = true) := by
    rw [encrypt, List.isEmpty_iff]
    apply base64Encode_ne_nil
    simp
  rw [isValidEncryptedToken]
  rw [if_neg henc, hsplit]
  have l1 : (bytesToHex iv).length = 32 := by rw [bytesToHex_length, hivlen]
  have l2 : (bytesToHex (G.enc key iv s).2).length = 32 := by
    rw [bytesToHex_length, hT key iv s]
  have l3 : ¬(bytesToHex (G.enc key iv s).1).isEmpty := by
    rw [List.isEmpty_iff, ← List.length_eq_zero, bytesToHex_length, hC key iv s]
    have : s.length ≠ 0 := by
      intro h0
      exact hne (List.length_eq_zero.mp h0)
    omega
  simp [l1, l2, l3]

/-! ## Witness apparatus lemmas for the toy cipher -/

theorem idGCM_roundtrip : GCMRoundtrip idGCM := by
  intro key iv p
  simp [idGCM, GCM.enc, GCM.dec]

theorem idGCM_bytes : GCMBytes idGCM := by
  intro key iv p hp
  refine ⟨hp, ?_⟩
  intro b hb
  have : b = 0 := List.eq_of_mem_replicate hb
  omega

theorem idGCM_taglen : GCMTagLen idGCM := by
  intro key iv p
  simp [idGCM]

theorem idGCM_ctlen : GCMCtLen idGCM := by
  intro key iv p
  simp [idGCM]

/-! ## Claim theorems -/

/-- C1: checkUserAuthentication never throws (it is a total function of the
store in this embedding, mirroring the catch-all that returns the safe
default), and when the store has no record for the key, or the record's
isAuthenticated flag is false, it returns the safe default
{isAuthenticated: false, userData: null, hasValidToken: false}. -/
theorem checkUserAuthentication_fail_closed (G : GCM) (key : List Nat) (db : AuthStore)
    (u : Nat) :
    (getUserAuthStatus db u = none → checkUserAuthentication G key db u = ⟨false, none, false⟩) ∧
    (∀ r, getUserAuthStatus db u = some r → r.isAuthenticated = false →
      checkUserAuthentication G key db u = ⟨false, none, false⟩) := by
  constructor
  · intro h
    unfold checkUserAuthentication
    rw [h]
  · intro r hr hauth
    unfold checkUserAuthentication
    rw [hr]
    simp [hauth]

/-- Witness for C1 at the empty store (also the state the code falls back
to when reading the JSON file fails). -/
theorem checkUserAuthentication_fail_closed_witness :
    checkUserAuthentication idGCM [] (fun _ => none) 0 = ⟨false, none, false⟩ :=
  (checkUserAuthentication_fail_closed idGCM [] (fun _ => none) 0).1 rfl

/-- C2: a record with isAuthenticated true whose stored credential is
absent or fails to decrypt yields isAuthenticated true and hasValidToken
false; the decryption failure is absorbed (getUserAccessToken returns
null) instead of propagating. -/
theorem checkUserAuthentication_ghost_state (G : GCM) (key : List Nat) (db : AuthStore)
    (u : Nat) (r : UserRecord) (hr : db u = some r) (hauth : r.isAuthenticated = true)
    (htok : r.privyAccessToken = none ∨
      ∃ tok, r.privyAccessToken = some tok ∧ decryptPrivyAccessToken G key tok = none) :
    getUserAccessToken G key db u = none ∧
    checkUserAuthentication G key db u = ⟨true, some r, false⟩ := by
  have hget : getUserAccessToken G key db u = none := by
    unfold getUserAccessToken getUserAuthStatus
    rw [hr]
    rcases htok with h | ⟨tok, htk, hdec⟩
    · simp [h]
    · simp only [htk]
      by_cases he : tok.isEmpty
      · simp [he]
      · simp [he, hdec]
  refine ⟨hget, ?_⟩
  unfold checkUserAuthentication getUserAuthStatus
  rw [hr]
  simp [hauth, hget, truthy]

/-- Witness for C2 at a concrete store holding an undecryptable token. -/
theorem checkUserAuthentication_ghost_state_witness :
    getUserAccessToken idGCM [] ghostDb 1 = none ∧
    checkUserAuthentication idGCM [] ghostDb 1 =
      ⟨true, some { isAuthenticated := true, privyAccessToken := some [1] }, false⟩ :=
  checkUserAuthentication_ghost_state idGCM [] ghostDb 1
    { isAuthenticated := true, privyAccessToken := some [1] } rfl rfl
    (Or.inr ⟨[1], rfl, by decide⟩)

/-- C3: for every plaintext byte string s, decrypt (encrypt s) = s under
the single process-wide key, given the defining properties of the GCM
primitive (decryption inverts encryption, outputs are bytes). -/
theorem decrypt_encrypt_roundtrip (G : GCM) (key iv s : List Nat)
    (hG : GCMRoundtrip G) (hB : GCMBytes G)
    (hiv : ∀ b ∈ iv, b < 256) (hs : ∀ b ∈ s, b < 256) :
    decrypt G key (encrypt G key iv s) = some s :=
  decrypt_encrypt G key iv s hG hB hiv hs

/-- Witness for C3 at the toy cipher and the plaintext bytes of "hi". -/
theorem decrypt_encrypt_roundtrip_witness :
    decrypt idGCM [] (encrypt idGCM [] iv0 [104, 105]) = some [104, 105] :=
  decrypt_encrypt_roundtrip idGCM [] iv0 [104, 105] idGCM_roundtrip idGCM_bytes
    (by decide) (by decide)

/-- C5: isValidEncryptedToken accepts every encrypt output of a non-empty
plaintext, rejects the plaintext "plain-bearer-token-xyz", and returns
false (it is total, never throwing) on a null/non-string argument and on
the empty string. -/
theorem isValidEncryptedToken_spec :
    (∀ (G : GCM) (key iv s : List Nat), GCMBytes G → GCMTagLen G → GCMCtLen G →
      iv.length = 16 → (∀ b ∈ iv, b < 256) → (∀ b ∈ s, b < 256) → s ≠ [] →
      isValidEncryptedToken (some (encrypt G key iv s)) = true) ∧
    isValidEncryptedToken (some plainBearerToken) = false ∧
    isValidEncryptedToken none = false ∧
    isValidEncryptedToken (some []) = false := by
  refine ⟨?_, by decide, rfl, rfl⟩
  intro G key iv s hB hT hC hivlen hiv hs hne
  exact isValidEncryptedToken_encrypt G key iv s hB hT hC hivlen hiv hs hne

/-- Witness for C5's universally quantified conjunct at the toy cipher. -/
theorem isValidEncryptedToken_spec_witness :
    isValidEncryptedToken (some (encrypt idGCM [] iv0 [104, 105])) = true :=
  isValidEncryptedToken_spec.1 idGCM [] iv0 [104, 105] idGCM_bytes idGCM_taglen idGCM_ctlen
    (by decide) (by decide) (by decide) (by decide)

/-- C6: createErrorMessage sets shouldClearAuth exactly for HTTP status
401, and handleInvalidToken wired to that flag clears the user's auth data
exactly then; a 403, any other status, or a non-HTTP error leaves the
store untouched. -/
theorem createErrorMessage_clears_iff_401 (e : ApiError) (db : AuthStore) (u : Nat) :
    ((createErrorMessage e).2 = true ↔ e.response.map ApiResponse.status = some 401) ∧
    handleInvalidToken db u (createErrorMessage e).2 =
      (if e.response.map ApiResponse.status = some 401 then clearUserAuthData db u else db) := by
  rcases e with ⟨resp, msg⟩
  rcases resp with _ | ⟨st, dm⟩
  · rcases msg with _ | m
    · simp [createErrorMessage, handleInvalidToken]
    · by_cases hm : m = "" <;> simp [createErrorMessage, handleInvalidToken, hm]
  · by_cases h1 : st = 401
    · simp [createErrorMessage, handleInvalidToken, h1]
    · by_cases h3 : st = 403 <;> simp [createErrorMessage, handleInvalidToken, h1, h3]

/-- C7: clearUserAuthData sets isAuthenticated to false and removes the
stored credential, keeps every other field of the record, leaves other
users and missing records untouched, and afterwards
checkUserAuthentication reports the safe default for that user. -/
theorem clearUserAuthData_spec (db : AuthStore) (u : Nat) (G : GCM) (key : List Nat) :
    (∀ r, db u = some r →
      clearUserAuthData db u u =
        some { r with isAuthenticated := false, privyAccessToken := none }) ∧
    (db u = none → ∀ k, clearUserAuthData db u k = db k) ∧
    (∀ k, k ≠ u → clearUserAuthData db u k = db k) ∧
    checkUserAuthentication G key (clearUserAuthData db u) u = ⟨false, none, false⟩ := by
  refine ⟨?_, ?_, ?_, ?_⟩
  · intro r hr
    simp [clearUserAuthData, hr]
  · intro h k
    by_cases hk : k = u
    · subst hk
      simp [clearUserAuthData, h]
    · simp [clearUserAuthData, hk]
  · intro k hk
    simp [clearUserAuthData, hk]
  · unfold checkUserAuthentication getUserAuthStatus
    rcases h : db u with _ | r
    · simp [clearUserAuthData, h]
    · simp [clearUserAuthData, h]

/-- Witness for C7 at a fully populated record: the cleared record keeps
walletId, privyUserId and lastLogin. -/
theorem clearUserAuthData_spec_witness :
    clearUserAuthData fullDb 1 1 =
      some { walletId := some [7], isAuthenticated := false, privyUserId := some [2],
             privyAccessToken := none, lastLogin := some 4 } :=
  (clearUserAuthData_spec fullDb 1 idGCM []).1
    { walletId := some [7], isAuthenticated := true, privyUserId := some [2],
      privyAccessToken := some [3], lastLogin := some 4 } rfl

/-- C8 counterexample: the claim says a put that does not supply lastLogin
preserves the stored lastLogin, but updateUserAuthStatus has no lastLogin
argument and overwrites it with the current time on every call: for the
record storing lastLogin 5, an update at time 9 supplying neither
privyUserId nor a credential leaves lastLogin 9, not 5. -/
theorem updateUserAuthStatus_overwrites_lastLogin :
    ((updateUserAuthStatus staleDb 1 true none none 9) 1).map UserRecord.lastLogin =
      some (some 9) ∧
    (staleDb 1).map UserRecord.lastLogin = some (some 5) := by
  constructor
  · simp [updateUserAuthStatus, staleDb, truthy]
  · simp [staleDb]

/-- C8 amended: updateUserAuthStatus is an upsert that never destroys
unrelated fields — an unsupplied providerUserId (and the wallet) is
preserved and other users are untouched — but lastLogin is not
preservable: it is overwritten with the current timestamp on every
call. -/
theorem updateUserAuthStatus_upsert_amended (db : AuthStore) (u : Nat) (isAuth : Bool)
    (pid tok : Option (List Nat)) (now : Nat) (r : UserRecord)
    (hr : db u = some r) (hpid : truthy pid = false) :
    ∃ r', updateUserAuthStatus db u isAuth pid tok now u = some r' ∧
      r'.privyUserId = r.privyUserId ∧ r'.lastLogin = some now ∧
      r'.walletId = r.walletId ∧ r'.isAuthenticated = isAuth ∧
      (∀ k, k ≠ u → updateUserAuthStatus db u isAuth pid tok now k = db k) := by
  have hu : updateUserAuthStatus db u isAuth pid tok now u =
      some { r with isAuthenticated := isAuth, lastLogin := some now,
                     privyUserId := if truthy pid then pid else r.privyUserId,
                     privyAccessToken := if truthy tok then tok else r.privyAccessToken } := by
    simp [updateUserAuthStatus, hr]
  refine ⟨_, hu, ?_, ?_, ?_, ?_, ?_⟩
  · simp [hpid]
  · simp
  · simp
  · simp
  · intro k hk
    simp [updateUserAuthStatus, hk]

/-- Witness for the amended C8 at the concrete stale record. -/
theorem updateUserAuthStatus_upsert_amended_witness :
    ∃ r', updateUserAuthStatus staleDb 1 true none none 9 1 = some r' ∧
      r'.privyUserId = none ∧ r'.lastLogin = some 9 ∧
      r'.walletId = none ∧ r'.isAuthenticated = true ∧
      (∀ k, k ≠ 1 → updateUserAuthStatus staleDb 1 true none none 9 k = staleDb k) :=
  updateUserAuthStatus_upsert_amended staleDb 1 true none none 9 { lastLogin := some 5 } rfl rfl

/-- C10: updateUserAuthStatus never removes previously stored fields — a
falsy credential argument keeps the stored ciphertext, a falsy
privyUserId keeps the stored privyUserId, a stored credential never
becomes absent (in particular a de-authentication POST /auth/callback
without a credential leaves the stale ciphertext in the store). -/
theorem updateUserAuthStatus_never_removes (G : GCM) (key iv : List Nat) (db : AuthStore)
    (u : Nat) (isAuth : Bool) (pid tok : Option (List Nat)) (now : Nat) (r : UserRecord)
    (hr : db u = some r) :
    (truthy tok = false → ∃ r', updateUserAuthStatus db u isAuth pid tok now u = some r' ∧
      r'.privyAccessToken = r.privyAccessToken) ∧
    (truthy pid = false → ∃ r', updateUserAuthStatus db u isAuth pid tok now u = some r' ∧
      r'.privyUserId = r.privyUserId) ∧
    (∀ t, r.privyAccessToken = some t →
      ∃ r' t', updateUserAuthStatus db u isAuth pid tok now u = some r' ∧
        r'.privyAccessToken = some t') ∧
    (∀ pid2 now2,
      storedToken (authCallback G key iv db (some u) pid2 false none now2).2 u =
        r.privyAccessToken) := by
  have hu : updateUserAuthStatus db u isAuth pid tok now u =
      some { r with isAuthenticated := isAuth, lastLogin := some now,
                     privyUserId := if truthy pid then pid else r.privyUserId,
                     privyAccessToken := if truthy tok then tok else r.privyAccessToken } := by
    simp [updateUserAuthStatus, hr]
  refine ⟨?_, ?_, ?_, ?_⟩
  · intro htk
    exact ⟨_, hu, by simp [htk]⟩
  · intro hp
    exact ⟨_, hu, by simp [hp]⟩
  · intro t ht
    by_cases htk : truthy tok
    · rcases tok with _ | s
      · simp [truthy] at htk
      · exact ⟨_, s, hu, by simp [htk]⟩
    · refine ⟨_, t, hu, ?_⟩
      simp only [Bool.not_eq_true] at htk
      simp [htk, ht]
  · intro pid2 now2
    simp [authCallback, storedToken, updateUserAuthStatus, hr, truthy]

/-- Witness for C10 at the fully populated record: the stored ciphertext
[3] survives an update supplying no credential. -/
theorem updateUserAuthStatus_never_removes_witness :
    ∃ r', updateUserAuthStatus fullDb 1 false none none 9 1 = some r' ∧
      r'.privyAccessToken = some [3] :=
  (updateUserAuthStatus_never_removes idGCM [] iv0 fullDb 1 false none none 9
    { walletId := some [7], isAuthenticated := true, privyUserId := some [2],
      privyAccessToken := some [3], lastLogin := some 4 } rfl).1 rfl

/-- Tokens passing the structural validity check are non-empty. -/
theorem isValid_not_empty (q : List Nat) (h : isValidEncryptedToken (some q) = true) :
    q.isEmpty = false := by
  by_cases hq : q.isEmpty
  · rw [isValidEncryptedToken] at h
    simp [hq] at h
  · simpa using hq

/-- The encrypt output is a non-empty byte string. -/
theorem encrypt_ne_nil (G : GCM) (key iv p : List Nat) : encrypt G key iv p ≠ [] := by
  rw [encrypt]
  apply base64Encode_ne_nil
  simp

/-- The credential POST /auth/callback persists for a truthy supplied
credential: the credential itself when it already has the encrypted
format, its encryption otherwise. -/
theorem storedToken_authCallback (G : GCM) (key iv : List Nat) (db : AuthStore) (u : Nat)
    (pid : Option (List Nat)) (a : Bool) (p : List Nat) (now : Nat)
    (hpe : p.isEmpty = false) :
    storedToken (authCallback G key iv db (some u) pid a (some p) now).2 u =
      some (if isValidEncryptedToken (some p) then p else encrypt G key iv p) := by
  by_cases hval : isValidEncryptedToken (some p)
  · simp [authCallback, storedToken, updateUserAuthStatus, truthy, hpe, hval]
  · have hee : (encrypt G key iv p).isEmpty = false := by
      rcases h : encrypt G key iv p with _ | ⟨x, xs⟩
      · exact absurd h (encrypt_ne_nil G key iv p)
      · rfl
    simp [authCallback, storedToken, updateUserAuthStatus, truthy, hpe, hval, hee]

/-- C4: the /auth/callback ingestion path is idempotent with respect to
encryption — an already-valid token is persisted as-is, an invalid
(plaintext) token is persisted as its encryption, which differs from the
plaintext and is itself valid; hence a second callback re-delivering the
stored value leaves the stored value unchanged. -/
theorem authCallback_idempotent_encryption (G : GCM) (key iv iv' : List Nat) (db : AuthStore)
    (u : Nat) (pid pid' : Option (List Nat)) (a a' : Bool) (p : List Nat) (now now' : Nat)
    (hB : GCMBytes G) (hT : GCMTagLen G) (hC : GCMCtLen G)
    (hivlen : iv.length = 16) (hiv : ∀ b ∈ iv, b < 256)
    (hp : ∀ b ∈ p, b < 256) (hne : p ≠ []) :
    (isValidEncryptedToken (some p) = true →
      storedToken (authCallback G key iv db (some u) pid a (some p) now).2 u = some p) ∧
    (isValidEncryptedToken (some p) = false →
      storedToken (authCallback G key iv db (some u) pid a (some p) now).2 u =
        some (encrypt G key iv p) ∧
      encrypt G key iv p ≠ p ∧
      isValidEncryptedToken (some (encrypt G key iv p)) = true) ∧
    (∀ q, storedToken (authCallback G key iv db (some u) pid a (some p) now).2 u = some q →
      storedToken (authCallback G key iv'
          (authCallback G key iv db (some u) pid a (some p) now).2
          (some u) pid' a' (some q) now').2 u = some q) := by
  have hpe : p.isEmpty = false := by
    rcases p with _ | ⟨x, xs⟩
    · exact absurd rfl hne
    · rfl
  have hst := storedToken_authCallback G key iv db u pid a p now hpe
  have hvenc : isValidEncryptedToken (some (encrypt G key iv p)) = true :=
    isValidEncryptedToken_encrypt G key iv p hB hT hC hivlen hiv hp hne
  refine ⟨?_, ?_, ?_⟩
  · intro hval
    rw [hst]
    simp [hval]
  · intro hval
    refine ⟨by rw [hst]; simp [hval], ?_, hvenc⟩
    intro heq
    rw [heq] at hvenc
    rw [hval] at hvenc
    cases hvenc
  · intro q hq
    rw [hst] at hq
    have hq' := (Option.some.inj hq).symm
    by_cases hval : isValidEncryptedToken (some p)
    · rw [if_pos hval] at hq'
      rw [hq']
      have hst2 := storedToken_authCallback G key iv'
        (authCallback G key iv db (some u) pid a (some p) now).2 u pid' a' p now' hpe
      rw [hst2, if_pos hval]
    · rw [if_neg hval] at hq'
      rw [hq']
      have hee : (encrypt G key iv p).isEmpty = false := isValid_not_empty _ hvenc
      have hst2 := storedToken_authCallback G key iv'
        (authCallback G key iv db (some u) pid a (some p) now).2 u pid' a'
        (encrypt G key iv p) now' hee
      rw [hst2, if_pos hvenc]

/-- Witness for C4's invalid-credential branch at the toy cipher: the raw
credential [1] is stored encrypted, the stored value differs from [1] and
is structurally valid. -/
theorem authCallback_idempotent_encryption_witness :
    storedToken (authCallback idGCM [] iv0 (fun _ => none) (some 1) none true
        (some [1]) 0).2 1 = some (encrypt idGCM [] iv0 [1]) ∧
    encrypt idGCM [] iv0 [1] ≠ [1] ∧
    isValidEncryptedToken (some (encrypt idGCM [] iv0 [1])) = true :=
  (authCallback_idempotent_encryption idGCM [] iv0 iv0 (fun _ => none) 1 none none true true
    [1] 0 0 idGCM_bytes idGCM_taglen idGCM_ctlen (by decide) (by decide) (by decide)
    (by decide)).2.1 (by decide)

/-- C9 counterexample: for a snapshot whose URL differs from the expected
URL while the pending-update counter is also above the threshold, the
endpoint's reason is "Too many pending updates" (the later check
overwrites the earlier one), not "URL mismatch" as the claim universally
requires for any differing URL. -/
theorem autoResetDecision_reason_precedence :
    driftInfo.url ≠ "https://b/webhook" ∧
    autoResetDecision driftInfo "https://b/webhook" 0 = (true, "Too many pending updates") ∧
    ("Too many pending updates" : String) ≠ "URL mismatch" := by
  refine ⟨by decide, by decide, by decide⟩

/-- The inline drift evaluation equals its last-match-wins normal form. -/
theorem autoResetDecision_eq (info : WebhookInfo) (expectedUrl : String) (nowMs : Int) :
    autoResetDecision info expectedUrl nowMs =
      (if info.pending_update_count > 10 then (true, "Too many pending updates")
       else if hasRecentWebhookErrors info nowMs then (true, "Recent errors detected")
       else if info.url ≠ expectedUrl then (true, "URL mismatch")
       else (false, "")) := by
  rcases info with ⟨url, led, pc⟩
  simp only [autoResetDecision, hasRecentWebhookErrors]
  rcases led with _ | d
  · by_cases hp : pc > 10 <;> by_cases hu : url ≠ expectedUrl <;> simp [hp, hu]
  · by_cases hp : pc > 10 <;>
      by_cases hd : d ≠ 0 ∧ nowMs - 1000 * d < 300000 <;>
      by_cases hu : url ≠ expectedUrl <;>
      simp [hp, hd, hu]

/-- C9 amended: needsReset is set iff the URL differs, a recent (within
300 s, truthy) error timestamp exists, or more than 10 updates are
pending; the reported reason is the last matching check in source order
(pending updates over recent errors over URL mismatch); and when
needsReset is set, re-registration is issued with drop_pending_updates
true. -/
theorem autoResetWebhook_drift_amended (info : WebhookInfo) (expectedUrl : String)
    (nowMs : Int) :
    autoResetDecision info expectedUrl nowMs =
      (if info.pending_update_count > 10 then (true, "Too many pending updates")
       else if hasRecentWebhookErrors info nowMs then (true, "Recent errors detected")
       else if info.url ≠ expectedUrl then (true, "URL mismatch")
       else (false, "")) ∧
    ((autoResetDecision info expectedUrl nowMs).1 = true ↔
      (info.url ≠ expectedUrl ∨ hasRecentWebhookErrors info nowMs = true ∨
        info.pending_update_count > 10)) ∧
    autoResetWebhook info expectedUrl nowMs =
      ((if (autoResetDecision info expectedUrl nowMs).1 then some ⟨expectedUrl, true⟩
        else none),
        autoResetDecision info expectedUrl nowMs) := by
  refine ⟨autoResetDecision_eq info expectedUrl nowMs, ?_, ?_⟩
  · rw [autoResetDecision_eq]
    by_cases hp : info.pending_update_count > 10 <;>
      by_cases hr2 : hasRecentWebhookErrors info nowMs <;>
      by_cases hu : info.url ≠ expectedUrl <;>
      simp [hp, hr2, hu]
  · by_cases hb : (autoResetDecision info expectedUrl nowMs).1 <;>
      simp [autoResetWebhook, hb]

/-- Witness for C6 at a concrete 401 error: the auth data is cleared. -/
theorem createErrorMessage_clears_iff_401_witness :
    handleInvalidToken fullDb 1 (createErrorMessage ⟨some ⟨401, none⟩, none⟩).2 =
      clearUserAuthData fullDb 1 := by
  have h := (createErrorMessage_clears_iff_401 ⟨some ⟨401, none⟩, none⟩ fullDb 1).2
  simpa using h

/-- Witness for the amended C9 at the spec's pending-updates example. -/
theorem autoResetWebhook_drift_amended_witness :
    autoResetDecision ⟨"https://x", none, 15⟩ "https://x" 0 =
      (true, "Too many pending updates") := by
  have h := (autoResetWebhook_drift_amended ⟨"https://x", none, 15⟩ "https://x" 0).1
  simpa using h
